import Mathlib

/-!
Shallow embedding of the agent-safety core of the repository:
the loop detector (`chapter-20/src/loop_detector.py`), the rate/cost
limiter and hardened agent (`chapter-20/src/secure_agent.py`), and the
circuit breaker (`chapter-21/src/circuit_breaker.py`).

Wall-clock instants (Python `time.time()` / `datetime.now()` values) are
modelled as rationals and passed explicitly to each operation; Python
exceptions become explicit outcome values; the mutable objects become
state-passing functions returning the updated state.
-/

namespace AgentSafety

/-! ### Loop detector (`loop_detector.py`) -/

/-- `LoopDetectionConfig` dataclass. -/
structure LoopDetectionConfig where
  max_action_repetitions : Nat
  max_total_iterations : Nat
  repetition_window : ℚ
  deriving DecidableEq

/-- `ActionRecord` dataclass (metadata omitted: no control flow reads it). -/
structure ActionRecord where
  action : String
  timestamp : ℚ
  deriving DecidableEq

/-- The mutable state of a `LoopDetector` instance. -/
structure LoopDetector where
  config : LoopDetectionConfig
  action_history : List ActionRecord
  iteration_count : Nat
  deriving DecidableEq

/-- `LoopDetector.__init__`. -/
def LoopDetector.new (config : LoopDetectionConfig) : LoopDetector :=
  ⟨config, [], 0⟩

/-- Outcome of one `check_action` call: normal return, or which exception
was raised. -/
inductive CheckOutcome
  | ok
  | loopDetected
  | maxIterationsExceeded
  deriving DecidableEq

/-- `LoopDetector._check_repetition`: `true` iff the call raises
`LoopDetected`, i.e. iff the number of records of the same action at or
after `current_time - repetition_window` has reached
`max_action_repetitions`. -/
def check_repetition (d : LoopDetector) (action : String) (current_time : ℚ) : Bool :=
  let cutoff_time := current_time - d.config.repetition_window
  let recent_actions := d.action_history.filter (fun r => decide (cutoff_time ≤ r.timestamp))
  let repetition_count := (recent_actions.filter (fun r => r.action = action)).length
  decide (d.config.max_action_repetitions ≤ repetition_count)

/-- `LoopDetector.check_action`: increments the iteration counter, then
checks the total-iteration budget, then the repetition window, and only
on success appends the new `ActionRecord`. -/
def check_action (d : LoopDetector) (action : String) (current_time : ℚ) :
    LoopDetector × CheckOutcome :=
  let d1 : LoopDetector := { d with iteration_count := d.iteration_count + 1 }
  if d1.config.max_total_iterations < d1.iteration_count then
    (d1, .maxIterationsExceeded)
  else if check_repetition d1 action current_time then
    (d1, .loopDetected)
  else
    ({ d1 with action_history := d1.action_history ++ [⟨action, current_time⟩] }, .ok)

/-- `LoopDetector._get_recent_actions`. -/
def get_recent_actions (d : LoopDetector) (count : Nat) : List String :=
  (d.action_history.drop (d.action_history.length - count)).map (fun r => r.action)

/-- The dictionary returned by `LoopDetector.get_stats`. -/
structure LoopStats where
  total_iterations : Nat
  unique_actions : Nat
  total_actions : Nat
  recent_actions : List String
  deriving DecidableEq

/-- `LoopDetector.get_stats`. -/
def get_stats (d : LoopDetector) : LoopStats :=
  ⟨d.iteration_count,
   ((d.action_history.map (fun r => r.action)).dedup).length,
   d.action_history.length,
   get_recent_actions d 10⟩

/-- Drive a detector through a list of `(action, time)` calls, keeping the
state each call leaves behind (a caller that catches the exception and
keeps calling sees exactly these states). -/
def run_actions (d : LoopDetector) (calls : List (String × ℚ)) : LoopDetector :=
  calls.foldl (fun s c => (check_action s c.1 c.2).1) d

/-- Like `run_actions`, but collecting the outcome of every call. -/
def run_outcomes (d : LoopDetector) (calls : List (String × ℚ)) : List CheckOutcome :=
  (calls.foldl
    (fun (acc : LoopDetector × List CheckOutcome) c =>
      let r := check_action acc.1 c.1 c.2
      (r.1, acc.2 ++ [r.2]))
    (d, [])).2

/-! ### Rate/cost limiter (`secure_agent.py`, class `RateLimiter`) -/

/-- The state of a `RateLimiter` instance (constructor arguments plus the
two sliding windows). -/
structure RateLimiter where
  max_requests_per_minute : Nat
  max_cost_per_hour : ℚ
  request_timestamps : List ℚ
  hourly_costs : List (ℚ × ℚ)
  deriving DecidableEq

/-- `RateLimiter.__init__`. -/
def RateLimiter.new (max_requests_per_minute : Nat) (max_cost_per_hour : ℚ) : RateLimiter :=
  ⟨max_requests_per_minute, max_cost_per_hour, [], []⟩

/-- `RateLimiter.allow_request`: prunes the request window to timestamps
strictly newer than `current_time - 60`, rejects without appending when
the pruned count has reached the per-minute cap, otherwise appends the
current time and accepts. -/
def allow_request (rl : RateLimiter) (current_time : ℚ) : RateLimiter × Bool :=
  let cutoff := current_time - 60
  let pruned := rl.request_timestamps.filter (fun ts => decide (cutoff < ts))
  if rl.max_requests_per_minute ≤ pruned.length then
    ({ rl with request_timestamps := pruned }, false)
  else
    ({ rl with request_timestamps := pruned ++ [current_time] }, true)

/-- `RateLimiter.record_cost`: prunes the hourly window to entries strictly
newer than `current_time - 3600`, then appends `(current_time, cost)`. -/
def record_cost (rl : RateLimiter) (cost : ℚ) (current_time : ℚ) : RateLimiter :=
  let cutoff := current_time - 3600
  { rl with hourly_costs :=
      (rl.hourly_costs.filter (fun p => decide (cutoff < p.1))) ++ [(current_time, cost)] }

/-- `RateLimiter.get_hourly_cost`: sums the costs currently stored in
`hourly_costs`, with no pruning of its own. -/
def get_hourly_cost (rl : RateLimiter) : ℚ :=
  (rl.hourly_costs.map (fun p => p.2)).sum

/-- `RateLimiter.allow_cost`: rejects iff the stored sum plus the estimate
exceeds `max_cost_per_hour`; performs no pruning and takes no timestamp. -/
def allow_cost (rl : RateLimiter) (estimated_cost : ℚ) : Bool :=
  if rl.max_cost_per_hour < get_hourly_cost rl + estimated_cost then false else true

/-- Follows the spec's words, for comparison with `allow_cost`: "prunes the
hourly window, sums retained costs, returns false if
`sum + estimated_cost > max_cost_per_hour`" — the pruning uses the decision
time `current_time`. -/
def allow_cost_pruned (rl : RateLimiter) (estimated_cost : ℚ) (current_time : ℚ) : Bool :=
  let retained := rl.hourly_costs.filter (fun p => decide (current_time - 3600 < p.1))
  if rl.max_cost_per_hour < (retained.map (fun p => p.2)).sum + estimated_cost then false
  else true

/-- Drive a rate limiter through a list of call instants, collecting every
`allow_request` verdict in call order. -/
def run_requests (rl : RateLimiter) : List ℚ → RateLimiter × List Bool
  | [] => (rl, [])
  | t :: rest =>
      let r := allow_request rl t
      let res := run_requests r.1 rest
      (res.1, r.2 :: res.2)

/-! ### Hardened agent (`secure_agent.py`, class `SecureAgent`)

`SecureAgent.execute` only ever inspects `kwargs` through `str(kwargs)`,
so the task input is embedded as that string. The zlib compressibility
test inside `_is_repetitive` is not reproducible in the embedding, so the
classifier is a parameter `is_repetitive` of the model; the claims settled
here do not depend on its value. -/

/-- Which exception (if any) one `SecureAgent.execute` call raises. -/
inductive ExecOutcome
  | success
  | rateLimitExceeded
  | costLimitExceeded
  | inputTooLarge
  | suspiciousInput
  | unauthorizedTask
  deriving DecidableEq

/-- `SecureAgent._estimate_cost`: `input_size * 0.75` estimated input
tokens, twice that output tokens, priced at 3 and 15 dollars per million
tokens. -/
def estimate_cost (kwargs_str : String) : ℚ :=
  let input_size : ℚ := kwargs_str.length
  let estimated_input_tokens := input_size * (3 / 4)
  let estimated_output_tokens := estimated_input_tokens * 2
  estimated_input_tokens * (3 / 1000000) + estimated_output_tokens * (15 / 1000000)

/-- The task whitelist of `SecureAgent._validate_input`. -/
def allowed_tasks : List String := ["fix_pod", "analyze_logs", "check_metrics"]

/-- `SecureAgent._validate_input`: size ceiling of 100000 characters, then
the repetition classifier, then the task whitelist. -/
def validate_input (is_repetitive : String → Bool) (task : String) (kwargs_str : String) :
    Option ExecOutcome :=
  if 100000 < kwargs_str.length then some .inputTooLarge
  else if is_repetitive kwargs_str then some .suspiciousInput
  else if (allowed_tasks.contains task) = false then some .unauthorizedTask
  else none

/-- `SecureAgent.execute`: rate limiting, then cost estimation and the
cost-budget admission check, then input validation, then the (simulated)
task whose actual cost `0.001` is recorded. -/
def execute (rl : RateLimiter) (is_repetitive : String → Bool)
    (task : String) (kwargs_str : String) (current_time : ℚ) : RateLimiter × ExecOutcome :=
  let r := allow_request rl current_time
  if r.2 = false then (r.1, .rateLimitExceeded)
  else
    let estimated_cost := estimate_cost kwargs_str
    if allow_cost r.1 estimated_cost = false then (r.1, .costLimitExceeded)
    else
      match validate_input is_repetitive task kwargs_str with
      | some e => (r.1, e)
      | none => (record_cost r.1 (1 / 1000) current_time, .success)

/-- A 500000-character input: long enough to violate both the 100000-byte
input screen and the 10-dollar hourly cost budget. -/
def big_input : String := String.mk (List.replicate 500000 'x')

/-! ### Circuit breaker (`circuit_breaker.py`) -/

/-- The `CircuitState` enum. -/
inductive CircuitState
  | closed
  | opened
  | halfOpen
  deriving DecidableEq

/-- `CircuitBreakerConfig` dataclass. The `expected_exception` field is
modelled by classifying each raised exception in `CallOutcome` instead of
carrying a Python type object. -/
structure CircuitBreakerConfig where
  failure_threshold : Nat
  success_threshold : Nat
  timeout : ℚ
  deriving DecidableEq

/-- The mutable state of a `CircuitBreaker` instance. -/
structure CircuitBreaker where
  config : CircuitBreakerConfig
  state : CircuitState
  failure_count : Nat
  success_count : Nat
  last_failure_time : Option ℚ
  last_state_change : ℚ
  deriving DecidableEq

/-- `CircuitBreaker.__init__` at construction instant `now`. -/
def CircuitBreaker.new (config : CircuitBreakerConfig) (now : ℚ) : CircuitBreaker :=
  ⟨config, .closed, 0, 0, none, now⟩

/-- `CircuitBreaker._should_attempt_reset`. -/
def should_attempt_reset (cb : CircuitBreaker) (now : ℚ) : Bool :=
  match cb.last_failure_time with
  | none => false
  | some t => decide (cb.config.timeout ≤ now - t)

/-- `CircuitBreaker._transition_to_half_open`. -/
def transition_to_half_open (cb : CircuitBreaker) (now : ℚ) : CircuitBreaker :=
  { cb with state := .halfOpen, success_count := 0, last_state_change := now }

/-- `CircuitBreaker._on_success`. -/
def on_success (cb : CircuitBreaker) (now : ℚ) : CircuitBreaker :=
  if cb.state = .halfOpen then
    let cb1 : CircuitBreaker := { cb with success_count := cb.success_count + 1 }
    if cb1.config.success_threshold ≤ cb1.success_count then
      { cb1 with state := .closed, failure_count := 0, success_count := 0,
                 last_state_change := now }
    else cb1
  else if cb.state = .closed then
    { cb with failure_count := 0 }
  else cb

/-- `CircuitBreaker._on_failure`. -/
def on_failure (cb : CircuitBreaker) (now : ℚ) : CircuitBreaker :=
  let cb1 : CircuitBreaker := { cb with failure_count := cb.failure_count + 1,
                                        last_failure_time := some now }
  if cb1.state = .halfOpen then
    { cb1 with state := .opened, failure_count := 0, success_count := 0,
               last_state_change := now }
  else if cb1.state = .closed then
    if cb1.config.failure_threshold ≤ cb1.failure_count then
      { cb1 with state := .opened, success_count := 0, last_state_change := now }
    else cb1
  else cb1

/-- How one invocation of the guarded operation ends: normal return, a
failure matching `config.expected_exception`, or any other exception. -/
inductive CallOutcome
  | ok
  | exExpected
  | exUnexpected
  deriving DecidableEq

/-- What `CircuitBreaker.call` does for the caller. -/
inductive CallResult
  | success
  | circuitOpenError
  | raisedExpected
  | raisedUnexpected
  deriving DecidableEq

/-- The try/except block of `CircuitBreaker.call`: run the operation and
apply the matching transition handler (an unexpected exception matches no
handler and leaves the breaker untouched). -/
def apply_outcome (cb : CircuitBreaker) (now : ℚ) (oc : CallOutcome) :
    CircuitBreaker × CallResult :=
  match oc with
  | .ok => (on_success cb now, .success)
  | .exExpected => (on_failure cb now, .raisedExpected)
  | .exUnexpected => (cb, .raisedUnexpected)

/-- Everything one `CircuitBreaker.call` leaves behind: the new breaker
state, what the caller sees, and whether the guarded operation was
invoked at all. -/
structure CallStep where
  breaker : CircuitBreaker
  result : CallResult
  invoked : Bool
  deriving DecidableEq

/-- `CircuitBreaker.call` at instant `now`, for an operation whose
invocation would end as `oc`. -/
def call (cb : CircuitBreaker) (now : ℚ) (oc : CallOutcome) : CallStep :=
  if cb.state = .opened then
    if should_attempt_reset cb now then
      let cb1 := transition_to_half_open cb now
      let r := apply_outcome cb1 now oc
      ⟨r.1, r.2, true⟩
    else ⟨cb, .circuitOpenError, false⟩
  else
    let r := apply_outcome cb now oc
    ⟨r.1, r.2, true⟩

/-- A burst of calls all at instant `0` (so no recovery timeout can elapse
between them when the configured timeout is positive). -/
def run_calls (cb : CircuitBreaker) (ocs : List CallOutcome) : CircuitBreaker :=
  ocs.foldl (fun s oc => (call s 0 oc).breaker) cb

/-- A call that the breaker classifies: `true` is a failure matching
`expected_exception`, `false` a successful call. -/
def outcome_of (b : Bool) : CallOutcome :=
  if b then .exExpected else .ok

/-- Reference recursion for the CLOSED-state failure tally: given `c`
consecutive classified failures already on the counter, does the
remaining call sequence drive the tally to `thr`?  A success resets the
tally to `0`. -/
def opens_from (thr : Nat) : Nat → List Bool → Bool
  | _, [] => false
  | c, true :: rest => if thr ≤ c + 1 then true else opens_from thr (c + 1) rest
  | _, false :: rest => opens_from thr 0 rest

/-! ## Helper lemmas -/

theorem check_action_config (d : LoopDetector) (a : String) (t : ℚ) :
    (check_action d a t).1.config = d.config := by
  simp only [check_action]
  split
  · rfl
  · split <;> rfl

theorem check_action_count (d : LoopDetector) (a : String) (t : ℚ) :
    (check_action d a t).1.iteration_count = d.iteration_count + 1 := by
  simp only [check_action]
  split
  · rfl
  · split <;> rfl

theorem run_actions_config (d : LoopDetector) (calls : List (String × ℚ)) :
    (run_actions d calls).config = d.config := by
  induction calls generalizing d with
  | nil => rfl
  | cons c rest ih =>
      show (run_actions (check_action d c.1 c.2).1 rest).config = d.config
      rw [ih, check_action_config]

theorem run_actions_count (d : LoopDetector) (calls : List (String × ℚ)) :
    (run_actions d calls).iteration_count = d.iteration_count + calls.length := by
  induction calls generalizing d with
  | nil => rfl
  | cons c rest ih =>
      show (run_actions (check_action d c.1 c.2).1 rest).iteration_count = _
      rw [ih, check_action_count, List.length_cons]
      omega

theorem run_actions_append (d : LoopDetector) (l₁ l₂ : List (String × ℚ)) :
    run_actions d (l₁ ++ l₂) = run_actions (run_actions d l₁) l₂ :=
  List.foldl_append ..

theorem filter_replicate {α : Type} (n : Nat) (r : α) (p : α → Bool) :
    (List.replicate n r).filter p = if p r then List.replicate n r else [] := by
  induction n with
  | zero => simp
  | succ n ih =>
      by_cases h : p r <;>
        simp [List.replicate_succ, List.filter_cons, h, ih]

/-- One `check_action` call on a detector whose history is `j` copies of
the same action, recorded at the very instant of the call, with the
counter also at `j`. -/
theorem check_action_uniform_step (cfg : LoopDetectionConfig) (a : String) (t : ℚ)
    (j : Nat) (hw : 0 ≤ cfg.repetition_window) :
    check_action ⟨cfg, List.replicate j ⟨a, t⟩, j⟩ a t =
      if cfg.max_total_iterations < j + 1 then
        (⟨cfg, List.replicate j ⟨a, t⟩, j + 1⟩, .maxIterationsExceeded)
      else if cfg.max_action_repetitions ≤ j then
        (⟨cfg, List.replicate j ⟨a, t⟩, j + 1⟩, .loopDetected)
      else
        (⟨cfg, List.replicate (j + 1) ⟨a, t⟩, j + 1⟩, .ok) := by
  have hkeep : (fun (r : ActionRecord) => decide (t - cfg.repetition_window ≤ r.timestamp))
      (⟨a, t⟩ : ActionRecord) = true := by
    simp only [decide_eq_true_eq]
    linarith
  have hmatch : (fun (r : ActionRecord) => decide (r.action = a)) (⟨a, t⟩ : ActionRecord) = true := by
    simp
  simp only [check_action, check_repetition, filter_replicate, hkeep, hmatch, decide_True,
    if_true, List.length_replicate, List.replicate_succ', decide_eq_true_eq]

theorem run_actions_replicate (cfg : LoopDetectionConfig) (a : String) (t : ℚ)
    (hw : 0 ≤ cfg.repetition_window) (j : Nat)
    (hj : j ≤ cfg.max_action_repetitions) (hj2 : j ≤ cfg.max_total_iterations) :
    run_actions (LoopDetector.new cfg) (List.replicate j (a, t)) =
      ⟨cfg, List.replicate j ⟨a, t⟩, j⟩ := by
  induction j with
  | zero => rfl
  | succ j ih =>
      rw [List.replicate_succ', run_actions_append,
        ih (by omega) (by omega)]
      show (check_action ⟨cfg, List.replicate j ⟨a, t⟩, j⟩ a t).1 = _
      rw [check_action_uniform_step cfg a t j hw, if_neg (by omega), if_neg (by omega)]

/-! ## Claims -/

/-- Claim C1, counterexample: with config
`{max_action_repetitions := 3, max_total_iterations := 10, repetition_window := 60}`
the action sequence `["check", "restart", "check", "restart", "restart"]`
(all within the window) raises nothing at all — in particular the 5th
call does not raise `LoopDetected` as the claim states, because
`_check_repetition` counts only prior records and the 3rd occurrence of
"restart" sees just 2 of them. -/
theorem check_action_scenario_ok :
    run_outcomes (LoopDetector.new ⟨3, 10, 60⟩)
        [("check", 0), ("restart", 0), ("check", 0), ("restart", 0), ("restart", 0)] =
      [.ok, .ok, .ok, .ok, .ok] := by
  have h : ((0 : ℚ) - 60 ≤ 0) := by norm_num
  simp [run_outcomes, check_action, check_repetition, LoopDetector.new, List.filter_cons, h]

/-- Claim C1 as amended: with `max_action_repetitions = k` (and the
iteration budget not in the way), `k` identical calls inside the window
all succeed, and it is the `(k+1)`-th identical call that raises
`LoopDetected`. -/
theorem check_action_repetition_bound (cfg : LoopDetectionConfig) (a : String) (t : ℚ)
    (hw : 0 ≤ cfg.repetition_window)
    (hn : cfg.max_action_repetitions < cfg.max_total_iterations) :
    (∀ j, j < cfg.max_action_repetitions →
      (check_action (run_actions (LoopDetector.new cfg) (List.replicate j (a, t))) a t).2 =
        CheckOutcome.ok) ∧
    (check_action
        (run_actions (LoopDetector.new cfg) (List.replicate cfg.max_action_repetitions (a, t)))
        a t).2 = CheckOutcome.loopDetected := by
  constructor
  · intro j hj
    rw [run_actions_replicate cfg a t hw j (by omega) (by omega),
      check_action_uniform_step cfg a t j hw, if_neg (by omega), if_neg (by omega)]
  · rw [run_actions_replicate cfg a t hw cfg.max_action_repetitions le_rfl (by omega),
      check_action_uniform_step cfg a t cfg.max_action_repetitions hw,
      if_neg (by omega), if_pos le_rfl]

/-- Witness for the amended claim C1 at the spec's own config: the 4th
identical "restart" call raises `LoopDetected`. -/
theorem check_action_repetition_bound_witness :
    (check_action
        (run_actions (LoopDetector.new ⟨3, 10, 60⟩) (List.replicate 3 ("restart", 0)))
        "restart" 0).2 = CheckOutcome.loopDetected :=
  (check_action_repetition_bound ⟨3, 10, 60⟩ "restart" 0 (by norm_num) (by norm_num)).2

/-- Claim C5: with `max_total_iterations = n`, every one of the first `n`
calls passes the iteration-budget check (whatever its action string), and
the `(n+1)`-th call raises `MaxIterationsExceeded` regardless of its
action — in particular the budget check fires before the repetition
check ever runs. -/
theorem check_action_iteration_budget (cfg : LoopDetectionConfig)
    (calls : List (String × ℚ)) (a : String) (t : ℚ) :
    (calls.length < cfg.max_total_iterations →
      (check_action (run_actions (LoopDetector.new cfg) calls) a t).2 ≠
        CheckOutcome.maxIterationsExceeded) ∧
    (calls.length = cfg.max_total_iterations →
      (check_action (run_actions (LoopDetector.new cfg) calls) a t).2 =
        CheckOutcome.maxIterationsExceeded) := by
  have hcnt : (run_actions (LoopDetector.new cfg) calls).iteration_count = calls.length := by
    rw [run_actions_count]
    simp [LoopDetector.new]
  have hcfg : (run_actions (LoopDetector.new cfg) calls).config = cfg :=
    run_actions_config ..
  constructor
  · intro h
    simp only [check_action, hcnt, hcfg]
    rw [if_neg (by omega)]
    split <;> simp
  · intro h
    simp only [check_action, hcnt, hcfg]
    rw [if_pos (by omega)]

/-- Witness for claim C5: with a budget of 2 iterations, the 3rd call
raises `MaxIterationsExceeded` even though its action is fresh. -/
theorem check_action_iteration_budget_witness :
    (check_action (run_actions (LoopDetector.new ⟨3, 2, 60⟩) [("a", 0), ("b", 0)]) "c" 0).2 =
      CheckOutcome.maxIterationsExceeded :=
  (check_action_iteration_budget ⟨3, 2, 60⟩ [("a", 0), ("b", 0)] "c" 0).2 rfl

/-- Claim C9: a `check_action` call that raises `LoopDetected` leaves the
action history untouched but has already incremented the iteration
counter, and `get_stats` reports that incremented counter — the rejected
call is counted. -/
theorem check_action_loop_detected_frame (d : LoopDetector) (a : String) (t : ℚ)
    (h : (check_action d a t).2 = CheckOutcome.loopDetected) :
    (check_action d a t).1.action_history = d.action_history ∧
    (check_action d a t).1.iteration_count = d.iteration_count + 1 ∧
    (get_stats (check_action d a t).1).total_iterations = d.iteration_count + 1 := by
  revert h
  simp only [check_action, get_stats]
  split
  · intro h
    exact absurd h (by simp)
  · split
    · intro _
      exact ⟨rfl, rfl, rfl⟩
    · intro h
      exact absurd h (by simp)

/-- Witness for claim C9: one repeated "x" call on a detector with
`max_action_repetitions = 1` is rejected, keeps the one-record history,
and still bumps the counter to 2. -/
theorem check_action_loop_detected_frame_witness :
    (check_action ⟨⟨1, 10, 60⟩, [⟨"x", 0⟩], 1⟩ "x" 0).1.action_history = [⟨"x", 0⟩] ∧
    (check_action ⟨⟨1, 10, 60⟩, [⟨"x", 0⟩], 1⟩ "x" 0).1.iteration_count = 1 + 1 ∧
    (get_stats (check_action ⟨⟨1, 10, 60⟩, [⟨"x", 0⟩], 1⟩ "x" 0).1).total_iterations = 1 + 1 :=
  check_action_loop_detected_frame ⟨⟨1, 10, 60⟩, [⟨"x", 0⟩], 1⟩ "x" 0 (by
    have h : ((0 : ℚ) - 60 ≤ 0) := by norm_num
    simp [check_action, check_repetition, List.filter_cons, h])

/-- One `allow_request` at instant `0` on a window of `j` timestamps that
all equal `0`: nothing has expired, so the call is admitted (appending an
entry) exactly when `j` is below the cap. -/
theorem allow_request_replicate_step (m : Nat) (c : ℚ) (j : Nat) :
    allow_request ⟨m, c, List.replicate j 0, []⟩ 0 =
      if m ≤ j then (⟨m, c, List.replicate j 0, []⟩, false)
      else (⟨m, c, List.replicate (j + 1) 0, []⟩, true) := by
  have hkeep : (fun (ts : ℚ) => decide ((0 : ℚ) - 60 < ts)) 0 = true := by norm_num
  simp only [allow_request, filter_replicate, hkeep, decide_True, if_true,
    List.length_replicate, List.replicate_succ']

theorem run_requests_all_ok (m : Nat) (c : ℚ) (n j : Nat) (h : j + n ≤ m) :
    run_requests ⟨m, c, List.replicate j 0, []⟩ (List.replicate n 0) =
      (⟨m, c, List.replicate (j + n) 0, []⟩, List.replicate n true) := by
  induction n generalizing j with
  | zero => simp [run_requests]
  | succ n ih =>
      rw [List.replicate_succ]
      simp only [run_requests, allow_request_replicate_step, if_neg (by omega : ¬ m ≤ j)]
      rw [ih (j + 1) (by omega)]
      have hj : j + 1 + n = j + (n + 1) := by omega
      rw [hj, List.replicate_succ]

theorem run_requests_append (rl : RateLimiter) (l₁ l₂ : List ℚ) :
    run_requests rl (l₁ ++ l₂) =
      ((run_requests (run_requests rl l₁).1 l₂).1,
       (run_requests rl l₁).2 ++ (run_requests (run_requests rl l₁).1 l₂).2) := by
  induction l₁ generalizing rl with
  | nil => simp [run_requests]
  | cons t rest ih => simp [run_requests, ih]

/-- Claim C2, the code evaluated at the failing input: one cost of `10`
recorded at instant `0`, queried at instant `4000` (well past the hour).
`allow_cost` still counts the stale entry and rejects an estimate of `1`,
and `get_hourly_cost` still reports `10`, while the pruning described by
the spec (`allow_cost_pruned`) admits it. -/
theorem allow_cost_stale_entry :
    allow_cost ⟨60, 10, [], [(0, 10)]⟩ 1 = false ∧
    get_hourly_cost ⟨60, 10, [], [(0, 10)]⟩ = 10 ∧
    allow_cost_pruned ⟨60, 10, [], [(0, 10)]⟩ 1 4000 = true := by
  norm_num [allow_cost, allow_cost_pruned, get_hourly_cost, List.filter_cons]

/-- Claim C8: `allow_request` prunes to the trailing 60-second window and
rejects without appending iff the pruned count has reached the cap
(clauses 1 and 2); with a cap of 60, a burst of 61 calls in the same
second admits exactly the first 60 (clause 3); a full window still
rejects mid-window (clause 4), and once the single earliest timestamp
expires exactly one slot frees up: the next call is admitted and the one
after it is rejected again (clauses 5 and 6). -/
theorem allow_request_sliding_window (rl : RateLimiter) (now : ℚ) :
    (rl.max_requests_per_minute ≤
        (rl.request_timestamps.filter (fun ts => decide (now - 60 < ts))).length →
      allow_request rl now =
        ({ rl with request_timestamps :=
            rl.request_timestamps.filter (fun ts => decide (now - 60 < ts)) }, false)) ∧
    ((rl.request_timestamps.filter (fun ts => decide (now - 60 < ts))).length <
        rl.max_requests_per_minute →
      allow_request rl now =
        ({ rl with request_timestamps :=
            rl.request_timestamps.filter (fun ts => decide (now - 60 < ts)) ++ [now] },
         true)) ∧
    (run_requests (RateLimiter.new 60 10) (List.replicate 61 0)).2 =
      List.replicate 60 true ++ [false] ∧
    (allow_request ⟨60, 10, List.replicate 60 0, []⟩ 30).2 = false ∧
    (allow_request ⟨60, 10, (0 : ℚ) :: List.replicate 59 1, []⟩ 60).2 = true ∧
    (allow_request (allow_request ⟨60, 10, (0 : ℚ) :: List.replicate 59 1, []⟩ 60).1 60).2 =
      false := by
  refine ⟨?_, ?_, ?_, ?_, ?_, ?_⟩
  · intro h
    simp only [allow_request]
    rw [if_pos h]
  · intro h
    simp only [allow_request]
    rw [if_neg (by omega)]
  · have h61 : (List.replicate 61 (0 : ℚ)) = List.replicate 60 0 ++ [0] :=
      List.replicate_succ' ..
    rw [h61, run_requests_append]
    have h60 : run_requests (RateLimiter.new 60 10) (List.replicate 60 0) =
        (⟨60, 10, List.replicate 60 0, []⟩, List.replicate 60 true) := by
      have hnew : RateLimiter.new 60 10 = ⟨60, 10, List.replicate 0 0, []⟩ := rfl
      rw [hnew, run_requests_all_ok 60 10 60 0 (by omega)]
    rw [h60]
    have hstep := allow_request_replicate_step 60 10 60
    rw [if_pos (by omega)] at hstep
    simp only [run_requests, hstep]
  · have hkeep : (fun (ts : ℚ) => decide ((30 : ℚ) - 60 < ts)) 0 = true := by norm_num
    simp only [allow_request, filter_replicate, hkeep, if_true, List.length_replicate]
    rw [if_pos (by omega)]
  · have hdrop : (fun (ts : ℚ) => decide ((60 : ℚ) - 60 < ts)) 0 = false := by norm_num
    have hkeep : (fun (ts : ℚ) => decide ((60 : ℚ) - 60 < ts)) 1 = true := by norm_num
    simp only [allow_request, List.filter_cons, filter_replicate, hdrop, hkeep, if_true,
      Bool.false_eq_true, if_false, List.length_replicate]
    rw [if_neg (by omega)]
  · have hdrop : (fun (ts : ℚ) => decide ((60 : ℚ) - 60 < ts)) 0 = false := by norm_num
    have hkeep : (fun (ts : ℚ) => decide ((60 : ℚ) - 60 < ts)) 1 = true := by norm_num
    have hkeep60 : (fun (ts : ℚ) => decide ((60 : ℚ) - 60 < ts)) 60 = true := by norm_num
    have hfirst : allow_request ⟨60, 10, (0 : ℚ) :: List.replicate 59 1, []⟩ 60 =
        (⟨60, 10, List.replicate 59 1 ++ [60], []⟩, true) := by
      simp only [allow_request, List.filter_cons, filter_replicate, hdrop, hkeep, if_true,
        Bool.false_eq_true, if_false, List.length_replicate]
      rw [if_neg (by omega)]
    rw [hfirst]
    simp only [allow_request, List.filter_append, List.filter_cons, List.filter_nil,
      filter_replicate, hkeep, hkeep60, if_true, List.length_append, List.length_replicate,
      List.length_cons, List.length_nil]
    rw [if_pos (by omega)]

/-- Witness for claim C8 on an empty one-slot limiter: the call is
admitted and its timestamp recorded. -/
theorem allow_request_sliding_window_witness :
    allow_request ⟨1, 10, [], []⟩ 0 = (⟨1, 10, [0], []⟩, true) := by
  have h := (allow_request_sliding_window ⟨1, 10, [], []⟩ 0).2.1 (by simp)
  simpa using h

theorem big_input_length : big_input.length = 500000 := by
  rw [show big_input.length = (List.replicate 500000 'x').length from rfl,
    List.length_replicate]

/-- When the rate limiter admits the call but the cost check rejects the
estimate, `execute` stops with `CostLimitExceeded`. -/
theorem execute_denies_cost (rl : RateLimiter) (is_rep : String → Bool)
    (task s : String) (now : ℚ)
    (hreq : (allow_request rl now).2 = true)
    (hcost : allow_cost (allow_request rl now).1 (estimate_cost s) = false) :
    (execute rl is_rep task s now).2 = ExecOutcome.costLimitExceeded := by
  simp only [execute, hreq, hcost]
  norm_num

/-- Claim C4, counterexample: `big_input` violates both the 100000-byte
input screen (it would raise `InputTooLarge`) and the cost budget (its
estimate is `12.375` dollars against a `10` dollar budget on a fresh
agent), yet `SecureAgent.execute` raises `CostLimitExceeded`: the input
screen runs only as security check 3, after the cost admission check,
not as a pre-filter. -/
theorem execute_big_input_cost_first :
    (execute (RateLimiter.new 60 10) (fun _ => false) "analyze_logs" big_input 0).2 =
      ExecOutcome.costLimitExceeded ∧
    validate_input (fun _ => false) "analyze_logs" big_input = some ExecOutcome.inputTooLarge := by
  constructor
  · have hest : estimate_cost big_input = 99 / 8 := by
      simp only [estimate_cost]
      rw [big_input_length]
      norm_num
    refine execute_denies_cost _ _ _ _ _ (by simp [allow_request, RateLimiter.new]) ?_
    have h1 : (allow_request (RateLimiter.new 60 10) 0).1 = ⟨60, 10, [0], []⟩ := by
      simp [allow_request, RateLimiter.new]
    rw [h1, hest]
    norm_num [allow_cost, get_hourly_cost]
  · rw [validate_input, if_pos (by rw [big_input_length]; omega)]

/-- Claim C4 as amended: input screening is security check 3, applied
after rate limiting and after the cost-budget admission check; whenever
the rate limiter admits the call and the cost check rejects it,
`execute` raises `CostLimitExceeded` no matter how the input would have
fared under the screen. -/
theorem execute_cost_check_first (rl : RateLimiter) (is_rep : String → Bool)
    (task s : String) (now : ℚ)
    (hreq : (allow_request rl now).2 = true)
    (hcost : allow_cost (allow_request rl now).1 (estimate_cost s) = false) :
    (execute rl is_rep task s now).2 = ExecOutcome.costLimitExceeded :=
  execute_denies_cost rl is_rep task s now hreq hcost

/-- Witness for the amended claim C4: a zero-budget agent admits the
request but rejects on cost. -/
theorem execute_cost_check_first_witness :
    (execute (⟨60, 0, [], []⟩ : RateLimiter) (fun _ => false) "fix_pod" "aaaa" 0).2 =
      ExecOutcome.costLimitExceeded :=
  execute_cost_check_first ⟨60, 0, [], []⟩ (fun _ => false) "fix_pod" "aaaa" 0
    (by simp [allow_request])
    (by
      have h4 : ("aaaa" : String).length = 4 := rfl
      norm_num [allow_cost, allow_request, get_hourly_cost, estimate_cost, h4])

/-- Claim C3, counterexample: with `failure_threshold = 1`, one classified
failure in CLOSED opens the circuit but leaves `failure_count = 1`, not
`0` — the CLOSED→OPEN branch of `_on_failure` resets only
`success_count`. -/
theorem call_closed_to_open_failure_count :
    (call (CircuitBreaker.new ⟨1, 2, 60⟩ 0) 0 .exExpected).breaker.state =
      CircuitState.opened ∧
    (call (CircuitBreaker.new ⟨1, 2, 60⟩ 0) 0 .exExpected).breaker.failure_count = 1 := by
  constructor <;> rfl

/-- Claim C3 as amended: when a classified failure in CLOSED brings the
incremented tally to at least `failure_threshold`, the breaker opens with
`success_count = 0`, but `failure_count` keeps the incremented value
(`old + 1 ≥ failure_threshold`); it is the HALF_OPEN transitions, not
this one, that zero the failure tally. -/
theorem on_failure_closed_to_open (cb : CircuitBreaker) (now : ℚ)
    (hc : cb.state = CircuitState.closed)
    (ht : cb.config.failure_threshold ≤ cb.failure_count + 1) :
    (on_failure cb now).state = CircuitState.opened ∧
    (on_failure cb now).success_count = 0 ∧
    (on_failure cb now).failure_count = cb.failure_count + 1 := by
  simp [on_failure, hc, ht]

/-- Witness for the amended claim C3: a threshold-1 breaker opens on its
first classified failure with the tally at 1. -/
theorem on_failure_closed_to_open_witness :
    (on_failure (CircuitBreaker.new ⟨1, 2, 60⟩ 0) 0).state = CircuitState.opened ∧
    (on_failure (CircuitBreaker.new ⟨1, 2, 60⟩ 0) 0).success_count = 0 ∧
    (on_failure (CircuitBreaker.new ⟨1, 2, 60⟩ 0) 0).failure_count = 0 + 1 :=
  on_failure_closed_to_open (CircuitBreaker.new ⟨1, 2, 60⟩ 0) 0 rfl
    (by simp [CircuitBreaker.new])

/-- Claim C6: in OPEN with a recorded last failure at `t`, a call before
`t + timeout` is rejected with `CircuitOpenError`, the operation never
invoked and the state untouched; a call at or after `t + timeout` invokes
the operation, from the HALF_OPEN state the lazy transition just
produced. -/
theorem call_open_behavior (cb : CircuitBreaker) (now t : ℚ) (oc : CallOutcome)
    (hs : cb.state = CircuitState.opened) (hl : cb.last_failure_time = some t) :
    (now - t < cb.config.timeout →
      call cb now oc = ⟨cb, .circuitOpenError, false⟩) ∧
    (cb.config.timeout ≤ now - t →
      (call cb now oc).invoked = true ∧
      (call cb now oc).breaker = (apply_outcome (transition_to_half_open cb now) now oc).1 ∧
      (call cb now oc).result = (apply_outcome (transition_to_half_open cb now) now oc).2 ∧
      (transition_to_half_open cb now).state = CircuitState.halfOpen) := by
  have hres : should_attempt_reset cb now = decide (cb.config.timeout ≤ now - t) := by
    simp [should_attempt_reset, hl]
  constructor
  · intro h
    have h' : ¬ (cb.config.timeout ≤ now - t) := not_le.mpr h
    simp [call, hs, hres, h']
  · intro h
    have h' : should_attempt_reset cb now = true := by
      rw [hres]
      exact decide_eq_true h
    simp [call, hs, h', transition_to_half_open]

/-- Witness for claim C6: an OPEN breaker (timeout 60, failure at 0):
rejected without invocation at instant 30; invoked at instant 60. -/
theorem call_open_behavior_witness :
    call ⟨⟨1, 2, 60⟩, .opened, 1, 0, some 0, 0⟩ 30 .ok =
      ⟨⟨⟨1, 2, 60⟩, .opened, 1, 0, some 0, 0⟩, .circuitOpenError, false⟩ ∧
    (call ⟨⟨1, 2, 60⟩, .opened, 1, 0, some 0, 0⟩ 60 .ok).invoked = true :=
  ⟨(call_open_behavior ⟨⟨1, 2, 60⟩, .opened, 1, 0, some 0, 0⟩ 30 0 .ok rfl rfl).1
      (by norm_num),
   ((call_open_behavior ⟨⟨1, 2, 60⟩, .opened, 1, 0, some 0, 0⟩ 60 0 .ok rfl rfl).2
      (by norm_num)).1⟩

/-- Claim C10: when the guarded operation is actually invoked and raises
an exception not matching `expected_exception`, `call` propagates it
(result `raisedUnexpected`) and the breaker state is bit-for-bit what it
was before the call — except that if the call found the breaker OPEN, the
lazy OPEN→HALF_OPEN transition (new state, zeroed `success_count`, fresh
`last_state_change`, everything else untouched) happened before the
invocation. -/
theorem call_unexpected_frame (cb : CircuitBreaker) (now : ℚ)
    (hinv : (call cb now .exUnexpected).invoked = true) :
    (call cb now .exUnexpected).result = CallResult.raisedUnexpected ∧
    (cb.state ≠ CircuitState.opened → (call cb now .exUnexpected).breaker = cb) ∧
    (cb.state = CircuitState.opened →
      (call cb now .exUnexpected).breaker = transition_to_half_open cb now ∧
      (transition_to_half_open cb now).state = CircuitState.halfOpen ∧
      (transition_to_half_open cb now).failure_count = cb.failure_count ∧
      (transition_to_half_open cb now).success_count = 0 ∧
      (transition_to_half_open cb now).last_failure_time = cb.last_failure_time ∧
      (transition_to_half_open cb now).last_state_change = now) := by
  by_cases hs : cb.state = CircuitState.opened
  · by_cases hr : should_attempt_reset cb now = true
    · simp [call, hs, hr, apply_outcome, transition_to_half_open]
    · simp [call, hs, hr] at hinv
  · simp [call, hs, apply_outcome]

/-- Witness for claim C10: a fresh CLOSED breaker is left exactly as it
was by an unclassified exception. -/
theorem call_unexpected_frame_witness :
    (call (CircuitBreaker.new ⟨5, 2, 60⟩ 0) 0 .exUnexpected).result =
      CallResult.raisedUnexpected ∧
    (call (CircuitBreaker.new ⟨5, 2, 60⟩ 0) 0 .exUnexpected).breaker =
      CircuitBreaker.new ⟨5, 2, 60⟩ 0 := by
  have h := call_unexpected_frame (CircuitBreaker.new ⟨5, 2, 60⟩ 0) 0 rfl
  exact ⟨h.1, h.2.1 (by simp [CircuitBreaker.new])⟩

/-- An OPEN breaker whose last failure was at instant `0` rejects every
later call at instant `0` (the positive timeout cannot have elapsed), so
a burst leaves it untouched. -/
theorem run_calls_open_fixed (ocs : List CallOutcome) (cb : CircuitBreaker)
    (htm : 0 < cb.config.timeout) (hs : cb.state = CircuitState.opened)
    (hl : cb.last_failure_time = some 0) :
    run_calls cb ocs = cb := by
  induction ocs with
  | nil => rfl
  | cons oc rest ih =>
      have hres : should_attempt_reset cb 0 = false := by
        simp only [should_attempt_reset, hl, decide_eq_false_iff_not]
        intro hle
        have : (0 : ℚ) - 0 = 0 := by norm_num
        rw [this] at hle
        linarith
      have hcall : call cb 0 oc = ⟨cb, .circuitOpenError, false⟩ := by
        simp [call, hs, hres]
      show run_calls (call cb 0 oc).breaker rest = cb
      rw [hcall]
      exact ih

/-- Bridge between the breaker dynamics in CLOSED state and the reference
tally recursion `opens_from`. -/
theorem run_calls_closed_opens_iff (bs : List Bool) (cb : CircuitBreaker)
    (htm : 0 < cb.config.timeout) (hc : cb.state = CircuitState.closed) :
    ((run_calls cb (bs.map outcome_of)).state = CircuitState.opened ↔
      opens_from cb.config.failure_threshold cb.failure_count bs = true) := by
  induction bs generalizing cb with
  | nil =>
      simp only [List.map_nil, run_calls, List.foldl_nil, hc, opens_from]
      simp
  | cons b rest ih =>
      simp only [List.map_cons]
      show ((run_calls (call cb 0 (outcome_of b)).breaker (rest.map outcome_of)).state =
          CircuitState.opened ↔ _)
      cases b
      · have hcall : (call cb 0 (outcome_of false)).breaker = { cb with failure_count := 0 } := by
          simp [outcome_of, call, hc, apply_outcome, on_success]
        rw [hcall, ih { cb with failure_count := 0 } htm hc]
        rfl
      · by_cases hth : cb.config.failure_threshold ≤ cb.failure_count + 1
        · have hcall : (call cb 0 (outcome_of true)).breaker =
              { cb with failure_count := cb.failure_count + 1, last_failure_time := some 0,
                        state := .opened, success_count := 0, last_state_change := 0 } := by
            simp [outcome_of, call, hc, apply_outcome, on_failure, hth]
          have habs : run_calls
              ({ cb with failure_count := cb.failure_count + 1, last_failure_time := some 0,
                         state := .opened, success_count := 0, last_state_change := 0 })
              (rest.map outcome_of) =
              { cb with failure_count := cb.failure_count + 1, last_failure_time := some 0,
                        state := .opened, success_count := 0, last_state_change := 0 } :=
            run_calls_open_fixed _ _ htm rfl rfl
          rw [hcall, habs]
          simp [opens_from, hth]
        · have hcall : (call cb 0 (outcome_of true)).breaker =
              { cb with failure_count := cb.failure_count + 1,
                        last_failure_time := some 0 } := by
            simp [outcome_of, call, hc, apply_outcome, on_failure, hth]
          have hrec := ih
            ⟨cb.config, cb.state, cb.failure_count + 1, cb.success_count, some 0,
              cb.last_state_change⟩ htm hc
          rw [hcall, hrec]
          simp [opens_from, hth]

theorem replicate_prefix_of_le {α : Type} {m n : Nat} (a : α) (h : m ≤ n) :
    List.replicate m a <+: List.replicate n a :=
  ⟨List.replicate (n - m) a, by rw [← List.replicate_add]; congr 1; omega⟩

/-- The tally recursion fires exactly when the call sequence carries the
threshold as a head run (shortened by the tally already carried in) or as
a full contiguous run anywhere. -/
theorem opens_from_iff (thr : Nat) (hthr : 1 ≤ thr) :
    ∀ (bs : List Bool) (c : Nat), c < thr →
      (opens_from thr c bs = true ↔
        (List.replicate (thr - c) true <+: bs) ∨ (List.replicate thr true <:+: bs)) := by
  intro bs
  induction bs with
  | nil =>
      intro c hc
      simp only [opens_from, List.prefix_nil, List.infix_nil, List.replicate_eq_nil_iff]
      constructor
      · intro h
        exact absurd h (by simp)
      · intro h
        omega
  | cons b rest ih =>
      intro c hc
      cases b
      · show (opens_from thr 0 rest = true ↔ _)
        rw [ih 0 (by omega), Nat.sub_zero]
        constructor
        · rintro (hp | hi)
          · exact Or.inr (List.infix_cons_iff.mpr (Or.inr hp.isInfix))
          · exact Or.inr (List.infix_cons_iff.mpr (Or.inr hi))
        · rintro (hp | hi)
          · exfalso
            rw [show thr - c = (thr - c - 1) + 1 from by omega, List.replicate_succ] at hp
            exact absurd (List.cons_prefix_cons.mp hp).1 (by simp)
          · rcases List.infix_cons_iff.mp hi with hp2 | hi2
            · exfalso
              rw [show thr = (thr - 1) + 1 from by omega, List.replicate_succ] at hp2
              exact absurd (List.cons_prefix_cons.mp hp2).1 (by simp)
            · exact Or.inr hi2
      · show ((if thr ≤ c + 1 then true else opens_from thr (c + 1) rest) = true ↔ _)
        by_cases hth : thr ≤ c + 1
        · rw [if_pos hth]
          constructor
          · intro _
            left
            rw [show thr - c = 1 from by omega]
            exact List.cons_prefix_cons.mpr ⟨rfl, List.nil_prefix⟩
          · intro _
            rfl
        · rw [if_neg hth, ih (c + 1) (by omega)]
          constructor
          · rintro (hp | hi)
            · left
              rw [show thr - c = (thr - (c + 1)) + 1 from by omega, List.replicate_succ]
              exact List.cons_prefix_cons.mpr ⟨rfl, hp⟩
            · exact Or.inr (List.infix_cons_iff.mpr (Or.inr hi))
          · rintro (hp | hi)
            · left
              rw [show thr - c = (thr - (c + 1)) + 1 from by omega, List.replicate_succ] at hp
              exact (List.cons_prefix_cons.mp hp).2
            · rcases List.infix_cons_iff.mp hi with hp2 | hi2
              · left
                rw [show thr = (thr - 1) + 1 from by omega, List.replicate_succ] at hp2
                exact (replicate_prefix_of_le true (by omega)).trans
                  (List.cons_prefix_cons.mp hp2).2
              · exact Or.inr hi2

/-- Claim C7: in CLOSED, a single successful call resets `failure_count`
to 0 and keeps the state CLOSED; consequently a fresh breaker (driven by
classified successes and failures inside the recovery timeout) ends up
OPEN exactly when the call sequence contains `failure_threshold`
CONSECUTIVE classified failures with no intervening success. -/
theorem closed_success_reset_and_consecutive_failures (cfg : CircuitBreakerConfig)
    (htm : 0 < cfg.timeout) (hthr : 1 ≤ cfg.failure_threshold) :
    (∀ (cb : CircuitBreaker) (now : ℚ), cb.state = CircuitState.closed →
      (call cb now .ok).breaker.state = CircuitState.closed ∧
      (call cb now .ok).breaker.failure_count = 0) ∧
    (∀ bs : List Bool,
      (run_calls (CircuitBreaker.new cfg 0) (bs.map outcome_of)).state =
          CircuitState.opened ↔
        List.replicate cfg.failure_threshold true <:+: bs) := by
  constructor
  · intro cb now hc
    constructor <;> simp [call, hc, apply_outcome, on_success]
  · intro bs
    rw [run_calls_closed_opens_iff bs (CircuitBreaker.new cfg 0) htm rfl]
    rw [show (CircuitBreaker.new cfg 0).failure_count = 0 from rfl,
      show (CircuitBreaker.new cfg 0).config = cfg from rfl,
      opens_from_iff cfg.failure_threshold hthr bs 0 (by omega), Nat.sub_zero]
    constructor
    · rintro (hp | hi)
      · exact hp.isInfix
      · exact hi
    · intro hi
      exact Or.inr hi

/-- Witness for claim C7: threshold 2; the sequence
failure, success, failure, failure opens the breaker (its last two calls
are the consecutive run), via the theorem's equivalence. -/
theorem closed_success_reset_and_consecutive_failures_witness :
    (run_calls (CircuitBreaker.new ⟨2, 2, 60⟩ 0)
        ([true, false, true, true].map outcome_of)).state = CircuitState.opened :=
  ((closed_success_reset_and_consecutive_failures ⟨2, 2, 60⟩ (by norm_num)
      (by norm_num)).2 [true, false, true, true]).mpr ⟨[true, false], [], rfl⟩

end AgentSafety
